import Mathlib

/-!
Verification development for the "In Case You Forget" letter application.

The application keeps an Action Ledger: a mapping from letter identifier to
a status plus two timestamps, persisted to browser local storage on every
real mutation.  The page code mutates the ledger exclusively through
`setAndPersistActions`, which runs an updater on the previous mapping and
persists the result exactly when the updater returned a new object (the
source compares `next !== previous`; the updaters return the previous
object itself to signal "no change", which we embed as `Option Ledger`
with `none` for "returned previous unchanged").

Timestamps (`Date.now()`) are passed in explicitly as `now : Nat`.
-/

inductive LetterStatus
  | read
  | hearted
  | archived
deriving DecidableEq, Repr

structure LetterState where
  status : LetterStatus
  seenAt : Nat
  updatedAt : Nat
deriving DecidableEq, Repr

structure Letter where
  id : String
  number : String
  tag : String
  text : String
  audio : String
deriving DecidableEq, Repr

/-- The in-memory `actions` record: letter identifier to `LetterState`.
A key with no entry models a letter that has never been opened. -/
def Ledger : Type := String → Option LetterState

def emptyLedger : Ledger := fun _ => none

/-- In-memory ledger together with the number of persistence writes that
have been attempted (`localStorage.setItem` calls; write failures are
swallowed by the source and do not affect the in-memory state). -/
structure PersistedLedger where
  ledger : Ledger
  writes : Nat

/-- Embeds `setAndPersistActions`: run the updater on the previous mapping;
if it produced a new object (`some next`), store it and persist once;
if it returned the previous object (`none`), keep everything unchanged. -/
def setAndPersistActions (updater : Ledger → Option Ledger) (s : PersistedLedger) :
    PersistedLedger :=
  match updater s.ledger with
  | none => s
  | some next => { ledger := next, writes := s.writes + 1 }

/-- The updater passed by `markRead`: if an entry already exists for
`letterId`, return the previous mapping unchanged; otherwise insert
`{status: read, seenAt: now, updatedAt: now}`. -/
def markReadUpdater (letterId : String) (now : Nat) (previous : Ledger) :
    Option Ledger :=
  match previous letterId with
  | some _ => none
  | none =>
      some (fun k =>
        if k = letterId then some ⟨LetterStatus.read, now, now⟩ else previous k)

def markRead (letterId : String) (now : Nat) : PersistedLedger → PersistedLedger :=
  setAndPersistActions (markReadUpdater letterId now)

/-- The updater passed by `updateStatus`: if the existing entry's status
already equals `status`, return the previous mapping unchanged; otherwise
write `{status, seenAt: existing?.seenAt ?? now, updatedAt: now}`. -/
def updateStatusUpdater (letterId : String) (status : LetterStatus) (now : Nat)
    (previous : Ledger) : Option Ledger :=
  match previous letterId with
  | some existing =>
      if existing.status = status then none
      else
        some (fun k =>
          if k = letterId then some ⟨status, existing.seenAt, now⟩ else previous k)
  | none =>
      some (fun k =>
        if k = letterId then some ⟨status, now, now⟩ else previous k)

def updateStatus (letterId : String) (status : LetterStatus) (now : Nat) :
    PersistedLedger → PersistedLedger :=
  setAndPersistActions (updateStatusUpdater letterId status now)

/-- A ledger mutation performed during a session, with the clock value at
which it ran. -/
inductive LedgerOp
  | doMarkRead (letterId : String) (now : Nat)
  | doSetStatus (letterId : String) (status : LetterStatus) (now : Nat)

def applyLedgerOp (s : PersistedLedger) : LedgerOp → PersistedLedger
  | LedgerOp.doMarkRead letterId now => markRead letterId now s
  | LedgerOp.doSetStatus letterId status now => updateStatus letterId status now s

def applyLedgerOps (ops : List LedgerOp) (s : PersistedLedger) : PersistedLedger :=
  ops.foldl applyLedgerOp s

example :
    ((markRead "a" 5 ⟨emptyLedger, 0⟩).ledger "a") =
      some ⟨LetterStatus.read, 5, 5⟩ := by decide

example : (markRead "a" 9 (markRead "a" 5 ⟨emptyLedger, 0⟩)).writes = 1 := by decide

/-!
Reveal Engine (`ScratchCard`).  The occlusion surface is a canvas; its
pixel data (`ctx.getImageData(...).data`) is a flat RGBA byte array, four
bytes per pixel, alpha at offsets 3, 7, 11, ....  `maybeCompleteReveal`
counts pixels whose alpha byte is exactly 0, forms the ratio over
`width * height` (0 for a zero-area surface), and, unless the
`revealTriggeredRef` latch is already set, fires `onRevealComplete` once
when the ratio reaches `revealThreshold`.  We instrument the state with a
`fires` counter recording how many times `onRevealComplete` has been
invoked since initialization.
-/

inductive ScratchMode
  | scratch
  | hover
  | click
deriving DecidableEq, Repr

structure EngineState where
  revealTriggered : Bool
  isRevealed : Bool
  isHovering : Bool
  fires : Nat
deriving DecidableEq, Repr

/-- State established by `initializeCanvas` (also run on every reset
signal): latch cleared, hover and click flags cleared, and our
instrumentation counter of callback invocations zeroed. -/
def initEngine : EngineState :=
  { revealTriggered := false, isRevealed := false, isHovering := false, fires := 0 }

/-- The loop `for (index = 3; index < data.length; index += 4)
{ if (data[index] === 0) clearedPixels += 1 }`: one alpha byte is read per
full RGBA quadruple present in the data. -/
def clearedPixels : List Nat → Nat
  | _r :: _g :: _b :: a :: rest => (if a = 0 then 1 else 0) + clearedPixels rest
  | _ => 0

/-- `totalPixels === 0 ? 0 : clearedPixels / totalPixels`. -/
def revealRatio (width height : Nat) (data : List Nat) : ℚ :=
  let totalPixels := width * height
  if totalPixels = 0 then 0 else (clearedPixels data : ℚ) / (totalPixels : ℚ)

/-- `maybeCompleteReveal`: return immediately when the latch is set;
otherwise compute the reveal ratio and, when it reaches the threshold,
set the latch and invoke `onRevealComplete` (counted by `fires`). -/
def maybeCompleteReveal (width height : Nat) (data : List Nat)
    (revealThreshold : ℚ) (s : EngineState) : EngineState :=
  if s.revealTriggered then s
  else if revealThreshold ≤ revealRatio width height data then
    { s with revealTriggered := true, fires := s.fires + 1 }
  else s

/-- `onPointerDown` in click mode: flip `isRevealed`; on the transition
into the revealed state with the latch still clear, set the latch and
invoke the callback. -/
def onPointerDownClick (s : EngineState) : EngineState :=
  let next := !s.isRevealed
  if next && !s.revealTriggered then
    { s with isRevealed := next, revealTriggered := true, fires := s.fires + 1 }
  else
    { s with isRevealed := next }

/-- `onMouseEnter` on the container: only acts in hover mode, where it
sets the `isHovering` flag.  It neither touches the latch nor invokes
`onRevealComplete`. -/
def onMouseEnter (mode : ScratchMode) (s : EngineState) : EngineState :=
  if mode = ScratchMode.hover then { s with isHovering := true } else s

/-- `onMouseLeave` on the container: only acts in hover mode, where it
clears the `isHovering` flag. -/
def onMouseLeave (mode : ScratchMode) (s : EngineState) : EngineState :=
  if mode = ScratchMode.hover then { s with isHovering := false } else s

/-- `canvasOpacity`: hover mode shows/hides the occlusion canvas off the
`isHovering` flag, click mode off the `isRevealed` flag, scratch mode
keeps it opaque (erasure happens inside the canvas itself). -/
def canvasOpacity (mode : ScratchMode) (s : EngineState) : ℚ :=
  match mode with
  | ScratchMode.hover => if s.isHovering then 0 else 1
  | ScratchMode.click => if s.isRevealed then 0 else 1
  | ScratchMode.scratch => 1

/-- The events that can reach the latch during one instance lifetime:
a reveal-ratio check running over some canvas contents (scratch mode,
from the every-7th-operation throttle or from stroke end), or a pointer
tap (click mode). -/
inductive RevealEvent
  | check (width height : Nat) (data : List Nat)
  | clickDown

def stepReveal (revealThreshold : ℚ) (s : EngineState) : RevealEvent → EngineState
  | RevealEvent.check width height data =>
      maybeCompleteReveal width height data revealThreshold s
  | RevealEvent.clickDown => onPointerDownClick s

def stepsReveal (revealThreshold : ℚ) (events : List RevealEvent)
    (s : EngineState) : EngineState :=
  events.foldl (stepReveal revealThreshold) s

/-- Canvas contents right after `initializeCanvas` for an `n`-pixel
surface: the fill with the opaque top-layer color `#e3c99f` (and the
speckle pass, which composites source-over onto an already opaque
surface) leaves every pixel with alpha 255. -/
def initialCanvasData : Nat → List Nat
  | 0 => []
  | n + 1 => 227 :: 201 :: 159 :: 255 :: initialCanvasData n

example : clearedPixels (List.replicate 16 0) = 4 := by decide

example : revealRatio 2 2 (List.replicate 16 0) = 1 := by
  have h : clearedPixels (List.replicate 16 0) = 4 := by decide
  rw [revealRatio]
  norm_num [h]

example : revealRatio 2 2 (initialCanvasData 4) = 0 := by
  have h : clearedPixels (initialCanvasData 4) = 0 := by decide
  rw [revealRatio]
  norm_num [h]

example :
    (maybeCompleteReveal 2 2 (List.replicate 16 0) (2/5) initEngine).fires = 1 := by
  have h : clearedPixels (List.replicate 16 0) = 4 := by decide
  rw [maybeCompleteReveal, revealRatio]
  norm_num [h, initEngine]

/-!
Audio Controller.  `audioRef` holds at most one `Audio` element and
`activeAudioId` the letter it belongs to.  We identify `Audio` elements
by a creation counter (`nextHandleId`) and track which elements are
currently audible (`playingHandles`): `pause()` and natural end-of-clip
remove an element, a successful `play()` adds it.  `play()` returns a
promise that settles asynchronously, and the source assigns
`audioRef.current` and `activeAudioId` only inside the `.then`/`.catch`
continuations; the embedding therefore splits `toggleAudio` into its
synchronous body (pause the currently referenced element, create the
next element, issue its play attempt) and a separate settlement event
that runs the continuation of a still-pending attempt.  Between issue
and settlement an attempt sits in `pendingPlays` as the pair of its
element and its letter id, in issue order.
-/

structure AudioState where
  audioRef : Option Nat
  activeAudioId : Option String
  nextHandleId : Nat
  pendingPlays : List (Nat × String)
  playingHandles : List Nat
deriving DecidableEq, Repr

def initAudioState : AudioState :=
  { audioRef := none, activeAudioId := none, nextHandleId := 0
    pendingPlays := [], playingHandles := [] }

/-- `stopAudio`: pause and rewind the referenced element (if any) and
drop the ref, then clear the active letter id.  Pending play attempts
are untouched — this code path holds no reference to them. -/
def stopAudio (s : AudioState) : AudioState :=
  match s.audioRef with
  | some player =>
      { s with
        playingHandles := s.playingHandles.filter (fun x => x ≠ player)
        audioRef := none
        activeAudioId := none }
  | none => { s with activeAudioId := none }

/-- The synchronous body of `toggleAudio(letter)`: no-op without an
audio source; stop when the letter is already the active slot;
otherwise pause and rewind the element currently in `audioRef` (only
that one — an attempt still pending is not paused), create the next
element and issue its play attempt.  Neither `audioRef` nor
`activeAudioId` is assigned here: the source writes them only in the
promise continuations. -/
def toggleAudio (letter : Letter) (s : AudioState) : AudioState :=
  if letter.audio = "" then s
  else if s.activeAudioId = some letter.id then stopAudio s
  else
    let paused :=
      match s.audioRef with
      | some player => s.playingHandles.filter (fun x => x ≠ player)
      | none => s.playingHandles
    { s with
      playingHandles := paused
      pendingPlays := s.pendingPlays ++ [(s.nextHandleId, letter.id)]
      nextHandleId := s.nextHandleId + 1 }

/-- Settlement of a pending play attempt for element `player`.  On
success the `.then` continuation runs: the clip starts sounding and
`audioRef`/`activeAudioId` take this element and its letter —
unconditionally, however stale the attempt.  On failure the `.catch`
continuation runs: the ref is dropped only if it already points at this
element, and the active id is cleared unconditionally.  Settling an
element with no pending attempt changes nothing. -/
def settlePlay (player : Nat) (success : Bool) (s : AudioState) : AudioState :=
  match s.pendingPlays.lookup player with
  | some letterId =>
      let pending := s.pendingPlays.filter (fun p => p.1 ≠ player)
      if success then
        { s with
          audioRef := some player
          activeAudioId := some letterId
          pendingPlays := pending
          playingHandles := s.playingHandles ++ [player] }
      else
        { s with
          audioRef := if s.audioRef = some player then none else s.audioRef
          activeAudioId := none
          pendingPlays := pending }
  | none => s

/-- The `onended` handler of element `player`: the clip stops sounding;
the ref and active id are cleared only when the ref still points at this
element. -/
def onEnded (player : Nat) (s : AudioState) : AudioState :=
  let stillPlaying := s.playingHandles.filter (fun x => x ≠ player)
  if s.audioRef = some player then
    { s with
      audioRef := none
      activeAudioId := none
      playingHandles := stillPlaying }
  else
    { s with playingHandles := stillPlaying }

inductive AudioEvent
  | evToggle (letter : Letter)
  | evSettle (player : Nat) (success : Bool)
  | evEnded (player : Nat)
  | evStop

def applyAudioEvent (s : AudioState) : AudioEvent → AudioState
  | AudioEvent.evToggle letter => toggleAudio letter s
  | AudioEvent.evSettle player success => settlePlay player success s
  | AudioEvent.evEnded player => onEnded player s
  | AudioEvent.evStop => stopAudio s

def applyAudioEvents (events : List AudioEvent) (s : AudioState) : AudioState :=
  events.foldl applyAudioEvent s

/-!
Ledger load (the startup effect).  `localStorage.getItem` yields either
nothing or a raw string; `JSON.parse` either throws (embedded as `none`)
or yields a JavaScript value; the parsed value replaces the initial empty
`actions` record exactly when it passes `parsed && typeof parsed ===
"object"` — i.e. it is truthy and of object type (a JSON object or an
array; `null` has object type but is falsy).  The whole effect body sits
in a `try`/`catch` whose handler does nothing, so no failure escapes.
`JSON.parse` itself is a host primitive, embedded as an oracle
`parse : String → Option JsonValue`.
-/

inductive JsonValue
  | jnull
  | jbool (b : Bool)
  | jnum (n : Int)
  | jstr (s : String)
  | jarr (elems : List JsonValue)
  | jobj (fields : List (String × JsonValue))

/-- `parsed && typeof parsed === "object"` for a parsed JSON value. -/
def isObjectLike : JsonValue → Bool
  | JsonValue.jobj _ => true
  | JsonValue.jarr _ => true
  | _ => false

/-- The load effect: on a missing stored value, a parse failure, or a
parsed value that is not a (truthy) object, the initial empty record is
kept; otherwise the parsed value replaces it. -/
def loadActions (parse : String → Option JsonValue) (stored : Option String) :
    JsonValue :=
  match stored with
  | none => JsonValue.jobj []
  | some raw =>
      match parse raw with
      | none => JsonValue.jobj []
      | some parsed =>
          if isObjectLike parsed then parsed else JsonValue.jobj []

/-!
Archive view.  `archiveItems` filters the letter list down to letters
having a ledger entry and sorts by `updatedAt` descending (comparator
`(first, second) => (actions[second.id]?.updatedAt ?? 0) -
(actions[first.id]?.updatedAt ?? 0)`); we embed the sort as an insertion
sort agreeing with that comparator.  No further narrowing (tag, search
text, favorites) appears anywhere in the archive derivation.
-/

/-- `actions[letter.id]?.updatedAt ?? 0`. -/
def archiveUpdatedAt (actions : Ledger) (letter : Letter) : Nat :=
  match actions letter.id with
  | some st => st.updatedAt
  | none => 0

def insertByUpdatedAtDesc (actions : Ledger) (letter : Letter) :
    List Letter → List Letter
  | [] => [letter]
  | x :: xs =>
      if archiveUpdatedAt actions x ≤ archiveUpdatedAt actions letter then
        letter :: x :: xs
      else
        x :: insertByUpdatedAtDesc actions letter xs

def sortByUpdatedAtDesc (actions : Ledger) : List Letter → List Letter
  | [] => []
  | x :: xs => insertByUpdatedAtDesc actions x (sortByUpdatedAtDesc actions xs)

/-- `archiveItems`: exactly the letters with a ledger entry, ordered by
`updatedAt` descending. -/
def archiveItems (letters : List Letter) (actions : Ledger) : List Letter :=
  sortByUpdatedAtDesc actions
    (letters.filter (fun letter => (actions letter.id).isSome))

example :
    archiveItems [⟨"a", "1", "t", "x", ""⟩]
        (fun k => if k = "a" then some ⟨LetterStatus.read, 1, 1⟩ else none) =
      [⟨"a", "1", "t", "x", ""⟩] := by decide

/-! Concrete states used by witnesses. -/

/-- A persisted ledger holding a single entry for letter `"a"` with
status `read` and both timestamps 1, with no writes recorded yet. -/
def plA : PersistedLedger :=
  { ledger := fun k => if k = "a" then some ⟨LetterStatus.read, 1, 1⟩ else none
    writes := 0 }

/-- The seenAt value `updateStatus` writes: the existing entry's seenAt
when one exists, the current clock otherwise (`existing?.seenAt ?? now`). -/
def seenAtFallback (existing : Option LetterState) (now : Nat) : Nat :=
  match existing with
  | some e => e.seenAt
  | none => now

/-- C1: for every letter id and status, `setStatus` with the status the
entry already has leaves the ledger and the persisted storage untouched
(the updater returns the previous mapping, so no write happens); with
any other status it writes `{status, seenAt: existing.seenAt ?? now,
updatedAt: now}` and persists exactly once. -/
theorem updateStatus_noop_or_write (pl : PersistedLedger) (letterId : String)
    (status : LetterStatus) (now : Nat) :
    ((pl.ledger letterId).map LetterState.status = some status →
      updateStatus letterId status now pl = pl) ∧
    ((pl.ledger letterId).map LetterState.status ≠ some status →
      (updateStatus letterId status now pl).ledger letterId =
        some ⟨status, seenAtFallback (pl.ledger letterId) now, now⟩ ∧
      (updateStatus letterId status now pl).writes = pl.writes + 1) := by
  constructor
  · intro hstat
    match hmem : pl.ledger letterId with
    | some existing =>
        have hs : existing.status = status := by
          rw [hmem] at hstat
          simpa using hstat
        simp [updateStatus, setAndPersistActions, updateStatusUpdater, hmem, hs]
    | none =>
        rw [hmem] at hstat
        simp at hstat
  · intro hstat
    match hmem : pl.ledger letterId with
    | some existing =>
        have hs : ¬existing.status = status := by
          rw [hmem] at hstat
          simpa using hstat
        simp [updateStatus, setAndPersistActions, updateStatusUpdater, hmem, hs,
          seenAtFallback]
    | none =>
        simp [updateStatus, setAndPersistActions, updateStatusUpdater, hmem,
          seenAtFallback]

/-- Witness for C1 at letter `"a"` of `plA`: setting `read` (the current
status) changes nothing; setting `hearted` keeps seenAt 1, stamps
updatedAt 5, and persists once. -/
theorem updateStatus_noop_or_write_witness :
    updateStatus "a" LetterStatus.read 5 plA = plA ∧
    (updateStatus "a" LetterStatus.hearted 5 plA).ledger "a" =
        some ⟨LetterStatus.hearted, 1, 5⟩ ∧
    (updateStatus "a" LetterStatus.hearted 5 plA).writes = 1 := by
  refine ⟨(updateStatus_noop_or_write plA "a" LetterStatus.read 5).1 (by decide),
    ?_, ?_⟩
  · exact ((updateStatus_noop_or_write plA "a" LetterStatus.hearted 5).2
      (by decide)).1
  · exact ((updateStatus_noop_or_write plA "a" LetterStatus.hearted 5).2
      (by decide)).2

/-- C5: `markRead` inserts `{status: read, seenAt: now, updatedAt: now}`
and persists once when no entry exists, is a no-op when one does, and is
therefore idempotent: a second call changes nothing, leaving one write
and the first call's seenAt. -/
theorem markRead_idempotent (pl : PersistedLedger) (letterId : String)
    (now1 now2 : Nat) :
    ((pl.ledger letterId).isSome = true → markRead letterId now2 pl = pl) ∧
    (pl.ledger letterId = none →
      (markRead letterId now1 pl).ledger letterId =
          some ⟨LetterStatus.read, now1, now1⟩ ∧
      (markRead letterId now1 pl).writes = pl.writes + 1 ∧
      markRead letterId now2 (markRead letterId now1 pl) =
        markRead letterId now1 pl) := by
  constructor
  · intro hsome
    match hmem : pl.ledger letterId with
    | some e => simp [markRead, setAndPersistActions, markReadUpdater, hmem]
    | none => rw [hmem] at hsome; simp at hsome
  · intro hnone
    refine ⟨?_, ?_, ?_⟩
    · simp [markRead, setAndPersistActions, markReadUpdater, hnone]
    · simp [markRead, setAndPersistActions, markReadUpdater, hnone]
    · have hagain :
          (markRead letterId now1 pl).ledger letterId =
            some ⟨LetterStatus.read, now1, now1⟩ := by
        simp [markRead, setAndPersistActions, markReadUpdater, hnone]
      generalize hpl1 : markRead letterId now1 pl = pl1 at hagain ⊢
      simp [markRead, setAndPersistActions, markReadUpdater, hagain]

/-- Witness for C5: marking letter `"a"` read twice on an empty ledger
yields one write, entry `{read, 5, 5}`, and an unchanged second call. -/
theorem markRead_idempotent_witness :
    (markRead "a" 5 ⟨emptyLedger, 0⟩).ledger "a" =
        some ⟨LetterStatus.read, 5, 5⟩ ∧
    (markRead "a" 5 ⟨emptyLedger, 0⟩).writes = 1 ∧
    markRead "a" 9 (markRead "a" 5 ⟨emptyLedger, 0⟩) =
      markRead "a" 5 ⟨emptyLedger, 0⟩ :=
  (markRead_idempotent ⟨emptyLedger, 0⟩ "a" 5 9).2 rfl

/-- One ledger mutation keeps the seenAt of any already-existing entry:
`markRead` does not touch existing entries at all, and `updateStatus`
carries the previous seenAt forward. -/
theorem applyLedgerOp_keeps_seenAt (op : LedgerOp) (pl : PersistedLedger)
    (letterId : String) (e : LetterState) (hmem : pl.ledger letterId = some e) :
    ∃ e', (applyLedgerOp pl op).ledger letterId = some e' ∧
      e'.seenAt = e.seenAt := by
  cases op with
  | doMarkRead x now =>
      by_cases hx : x = letterId
      · subst hx
        exact ⟨e, by simp [applyLedgerOp, markRead, setAndPersistActions,
          markReadUpdater, hmem], rfl⟩
      · match hmemx : pl.ledger x with
        | some ex =>
            exact ⟨e, by simp [applyLedgerOp, markRead, setAndPersistActions,
              markReadUpdater, hmemx, hmem], rfl⟩
        | none =>
            refine ⟨e, ?_, rfl⟩
            have hne : ¬letterId = x := fun h => hx h.symm
            simp [applyLedgerOp, markRead, setAndPersistActions, markReadUpdater,
              hmemx, hne, hmem]
  | doSetStatus x status now =>
      by_cases hx : x = letterId
      · subst hx
        by_cases hs : e.status = status
        · exact ⟨e, by simp [applyLedgerOp, updateStatus, setAndPersistActions,
            updateStatusUpdater, hmem, hs], rfl⟩
        · exact ⟨⟨status, e.seenAt, now⟩, by simp [applyLedgerOp, updateStatus,
            setAndPersistActions, updateStatusUpdater, hmem, hs], rfl⟩
      · have hne : ¬letterId = x := fun h => hx h.symm
        match hmemx : pl.ledger x with
        | some ex =>
            by_cases hs : ex.status = status
            · exact ⟨e, by simp [applyLedgerOp, updateStatus, setAndPersistActions,
                updateStatusUpdater, hmemx, hs, hmem], rfl⟩
            · exact ⟨e, by simp [applyLedgerOp, updateStatus, setAndPersistActions,
                updateStatusUpdater, hmemx, hs, hne, hmem], rfl⟩
        | none =>
            exact ⟨e, by simp [applyLedgerOp, updateStatus, setAndPersistActions,
              updateStatusUpdater, hmemx, hne, hmem], rfl⟩

/-- C4: once an entry exists for a letter, its seenAt survives every
subsequent sequence of `markRead`/`setStatus` calls unchanged, while a
real status change stamps updatedAt with that call's clock. -/
theorem seenAt_never_changes (ops : List LedgerOp) (pl : PersistedLedger)
    (letterId : String) (e : LetterState) (status : LetterStatus) (now : Nat) :
    (pl.ledger letterId = some e →
      ∃ e', (applyLedgerOps ops pl).ledger letterId = some e' ∧
        e'.seenAt = e.seenAt) ∧
    ((pl.ledger letterId).map LetterState.status ≠ some status →
      ((updateStatus letterId status now pl).ledger letterId).map
          LetterState.updatedAt = some now) := by
  constructor
  · intro hmem
    induction ops generalizing pl e with
    | nil => exact ⟨e, hmem, rfl⟩
    | cons op rest ih =>
        obtain ⟨e1, h1, hseen1⟩ := applyLedgerOp_keeps_seenAt op pl letterId e hmem
        obtain ⟨e2, h2, hseen2⟩ := ih (applyLedgerOp pl op) e1 h1
        exact ⟨e2, h2, hseen2.trans hseen1⟩
  · intro hstat
    match hmem : pl.ledger letterId with
    | some existing =>
        have hs : ¬existing.status = status := by
          rw [hmem] at hstat
          simpa using hstat
        simp [updateStatus, setAndPersistActions, updateStatusUpdater, hmem, hs]
    | none =>
        simp [updateStatus, setAndPersistActions, updateStatusUpdater, hmem]

/-- Witness for C4: after hearting then archiving letter `"a"` of `plA`,
its entry still has the original seenAt 1; the hearting call stamps
updatedAt 7. -/
theorem seenAt_never_changes_witness :
    (∃ e', (applyLedgerOps
        [LedgerOp.doSetStatus "a" LetterStatus.hearted 7,
         LedgerOp.doSetStatus "a" LetterStatus.archived 9] plA).ledger "a" =
          some e' ∧ e'.seenAt = 1) ∧
    ((updateStatus "a" LetterStatus.hearted 7 plA).ledger "a").map
        LetterState.updatedAt = some 7 := by
  refine ⟨(seenAt_never_changes
      [LedgerOp.doSetStatus "a" LetterStatus.hearted 7,
       LedgerOp.doSetStatus "a" LetterStatus.archived 9] plA "a"
      ⟨LetterStatus.read, 1, 1⟩ LetterStatus.hearted 7).1 (by decide),
    (seenAt_never_changes [] plA "a" ⟨LetterStatus.read, 1, 1⟩
      LetterStatus.hearted 7).2 (by decide)⟩

/-- C10: the ledger mutations are local to their key and never delete:
`markRead x` and `setStatus x` leave the entry (or absence) at any other
key y untouched, and every key that had an entry still has one after
either mutation. -/
theorem ledger_mutations_local (pl : PersistedLedger) (x y : String)
    (status : LetterStatus) (now : Nat) (hxy : x ≠ y) :
    ((markRead x now pl).ledger y = pl.ledger y) ∧
    ((updateStatus x status now pl).ledger y = pl.ledger y) ∧
    (∀ z, (pl.ledger z).isSome = true →
      ((markRead x now pl).ledger z).isSome = true) ∧
    (∀ z, (pl.ledger z).isSome = true →
      ((updateStatus x status now pl).ledger z).isSome = true) := by
  have hyx : ¬y = x := fun h => hxy h.symm
  refine ⟨?_, ?_, ?_, ?_⟩
  · match hmemx : pl.ledger x with
    | some ex => simp [markRead, setAndPersistActions, markReadUpdater, hmemx]
    | none => simp [markRead, setAndPersistActions, markReadUpdater, hmemx, hyx]
  · match hmemx : pl.ledger x with
    | some ex =>
        by_cases hs : ex.status = status
        · simp [updateStatus, setAndPersistActions, updateStatusUpdater, hmemx, hs]
        · simp [updateStatus, setAndPersistActions, updateStatusUpdater, hmemx,
            hs, hyx]
    | none =>
        simp [updateStatus, setAndPersistActions, updateStatusUpdater, hmemx, hyx]
  · intro z hz
    by_cases hzx : z = x
    · subst hzx
      match hmemx : pl.ledger z with
      | some ex => simp [markRead, setAndPersistActions, markReadUpdater, hmemx]
      | none => rw [hmemx] at hz; simp at hz
    · match hmemx : pl.ledger x with
      | some ex => simpa [markRead, setAndPersistActions, markReadUpdater, hmemx]
          using hz
      | none => simpa [markRead, setAndPersistActions, markReadUpdater, hmemx,
          hzx] using hz
  · intro z hz
    by_cases hzx : z = x
    · subst hzx
      match hmemx : pl.ledger z with
      | some ex =>
          by_cases hs : ex.status = status
          · simp [updateStatus, setAndPersistActions, updateStatusUpdater,
              hmemx, hs, hz]
          · simp [updateStatus, setAndPersistActions, updateStatusUpdater,
              hmemx, hs]
      | none =>
          simp [updateStatus, setAndPersistActions, updateStatusUpdater, hmemx]
    · match hmemx : pl.ledger x with
      | some ex =>
          by_cases hs : ex.status = status
          · simpa [updateStatus, setAndPersistActions, updateStatusUpdater,
              hmemx, hs] using hz
          · simpa [updateStatus, setAndPersistActions, updateStatusUpdater,
              hmemx, hs, hzx] using hz
      | none =>
          simpa [updateStatus, setAndPersistActions, updateStatusUpdater,
            hmemx, hzx] using hz

/-- Witness for C10: mutating letter `"a"` of `plA` leaves key `"b"`
exactly as it was and keeps the entry at `"a"` present. -/
theorem ledger_mutations_local_witness :
    ((markRead "a" 5 plA).ledger "b" = plA.ledger "b") ∧
    ((updateStatus "a" LetterStatus.hearted 5 plA).ledger "b" =
      plA.ledger "b") ∧
    ((updateStatus "a" LetterStatus.hearted 5 plA).ledger "a").isSome = true := by
  have h := ledger_mutations_local plA "a" "b" LetterStatus.hearted 5 (by decide)
  exact ⟨h.1, h.2.1, h.2.2.2 "a" (by decide)⟩

/-- One reveal event with the latch set changes neither the callback
count nor the latch; one with the latch clear either leaves both alone
or fires once and sets the latch. -/
theorem stepReveal_latch (t : ℚ) (s : EngineState) (e : RevealEvent) :
    (s.revealTriggered = true →
      (stepReveal t s e).fires = s.fires ∧
      (stepReveal t s e).revealTriggered = true) ∧
    (s.revealTriggered = false →
      ((stepReveal t s e).fires = s.fires ∧
        (stepReveal t s e).revealTriggered = false) ∨
      ((stepReveal t s e).fires = s.fires + 1 ∧
        (stepReveal t s e).revealTriggered = true)) := by
  cases e with
  | check width height data =>
      constructor
      · intro h
        simp [stepReveal, maybeCompleteReveal, h]
      · intro h
        by_cases hr : t ≤ revealRatio width height data
        · right
          simp [stepReveal, maybeCompleteReveal, h, hr]
        · left
          simp [stepReveal, maybeCompleteReveal, h, hr]
  | clickDown =>
      constructor
      · intro h
        simp [stepReveal, onPointerDownClick, h]
      · intro h
        by_cases hrev : s.isRevealed
        · left
          simp [stepReveal, onPointerDownClick, h, hrev]
        · right
          simp [stepReveal, onPointerDownClick, h, hrev]

/-- Over any event sequence: a latched state never fires again, and an
unlatched state fires at most once. -/
theorem stepsReveal_latch (t : ℚ) (events : List RevealEvent) :
    ∀ s : EngineState,
      (s.revealTriggered = true →
        (stepsReveal t events s).fires = s.fires ∧
        (stepsReveal t events s).revealTriggered = true) ∧
      (s.revealTriggered = false →
        (stepsReveal t events s).fires ≤ s.fires + 1) := by
  induction events with
  | nil =>
      intro s
      exact ⟨fun h => ⟨rfl, h⟩, fun _ => Nat.le_succ _⟩
  | cons e rest ih =>
      intro s
      have hstep := stepReveal_latch t s e
      have hrest := ih (stepReveal t s e)
      have hfold :
          stepsReveal t (e :: rest) s = stepsReveal t rest (stepReveal t s e) := rfl
      constructor
      · intro h
        obtain ⟨hf, hl⟩ := hstep.1 h
        obtain ⟨hf', hl'⟩ := hrest.1 hl
        exact ⟨by rw [hfold, hf', hf], by rw [hfold]; exact hl'⟩
      · intro h
        rcases hstep.2 h with ⟨hf, hl⟩ | ⟨hf, hl⟩
        · have := hrest.2 hl
          rw [hfold]
          omega
        · obtain ⟨hf', _⟩ := hrest.1 hl
          rw [hfold, hf', hf]

/-- C2: the reveal callback fires at most once per instance lifetime —
once the latch is set by any firing (a scratch-mode ratio check or a
click-mode first reveal), no later check or click fires again, and from
a freshly initialized (or freshly reset) instance any event sequence
produces at most one invocation. -/
theorem reveal_fires_at_most_once (t : ℚ) (events : List RevealEvent)
    (s : EngineState) :
    (s.revealTriggered = true → (stepsReveal t events s).fires = s.fires) ∧
    (s.revealTriggered = false → (stepsReveal t events s).fires ≤ s.fires + 1) ∧
    (stepsReveal t events initEngine).fires ≤ 1 :=
  ⟨fun h => ((stepsReveal_latch t events s).1 h).1,
   fun h => (stepsReveal_latch t events s).2 h,
   (stepsReveal_latch t events initEngine).2 rfl⟩

/-- A latched engine state with one recorded invocation. -/
def latchedEngine : EngineState :=
  { revealTriggered := true, isRevealed := true, isHovering := false, fires := 1 }

/-- Witness for C2: two further clicks on a latched instance leave the
invocation count at 1, and two clicks from a fresh instance invoke the
callback at most once. -/
theorem reveal_fires_at_most_once_witness :
    (stepsReveal (2/5) [RevealEvent.clickDown, RevealEvent.clickDown]
        latchedEngine).fires = 1 ∧
    (stepsReveal (2/5) [RevealEvent.clickDown, RevealEvent.clickDown]
        initEngine).fires ≤ 1 :=
  ⟨(reveal_fires_at_most_once (2/5)
      [RevealEvent.clickDown, RevealEvent.clickDown] latchedEngine).1 rfl,
   (reveal_fires_at_most_once (2/5)
      [RevealEvent.clickDown, RevealEvent.clickDown] latchedEngine).2.2⟩

/-- A fully erased `n`-pixel surface (all RGBA bytes 0) has all `n`
alpha bytes equal to 0. -/
theorem clearedPixels_replicate_zero (n : Nat) :
    clearedPixels (List.replicate (4 * n) 0) = n := by
  induction n with
  | zero => rfl
  | succ m ih =>
      have h4 : 4 * (m + 1) = (4 * m) + 1 + 1 + 1 + 1 := by ring
      rw [h4, List.replicate_succ, List.replicate_succ, List.replicate_succ,
        List.replicate_succ, clearedPixels, ih]
      simp [Nat.add_comm]

/-- The freshly initialized surface has no alpha-0 pixel. -/
theorem clearedPixels_initial (n : Nat) :
    clearedPixels (initialCanvasData n) = 0 := by
  induction n with
  | zero => rfl
  | succ m ih =>
      rw [initialCanvasData, clearedPixels, ih]
      simp

/-- C3: the reveal-ratio check divides the count of alpha-0 pixels by
`width * height`, yielding 0 on a zero-area surface, 1 on a fully erased
surface, 0 on the freshly painted one; an unlatched check fires exactly
when the ratio reaches the threshold, and any check either leaves the
count alone or fires from an unlatched state with the ratio at or above
the threshold. -/
theorem revealRatio_spec (width height : Nat) (data : List Nat) (t : ℚ)
    (s : EngineState) :
    (width * height = 0 → revealRatio width height data = 0) ∧
    (0 < width * height →
      revealRatio width height (List.replicate (4 * (width * height)) 0) = 1) ∧
    revealRatio width height (initialCanvasData (width * height)) = 0 ∧
    (s.revealTriggered = false →
      ((maybeCompleteReveal width height data t s).fires = s.fires + 1 ↔
        t ≤ revealRatio width height data)) ∧
    ((maybeCompleteReveal width height data t s).fires = s.fires ∨
      (t ≤ revealRatio width height data ∧ s.revealTriggered = false ∧
        (maybeCompleteReveal width height data t s).fires = s.fires + 1)) := by
  refine ⟨?_, ?_, ?_, ?_, ?_⟩
  · intro h0
    simp [revealRatio, h0]
  · intro hpos
    have hne : width * height ≠ 0 := hpos.ne'
    have hcast : ((width : ℚ) * (height : ℚ)) ≠ 0 := by
      have h := Nat.cast_ne_zero (R := ℚ).mpr hne
      push_cast at h
      exact h
    simp [revealRatio, hne, clearedPixels_replicate_zero, div_self hcast]
  · by_cases h0 : width * height = 0
    · simp [revealRatio, h0]
    · simp [revealRatio, h0, clearedPixels_initial]
  · intro hlatch
    by_cases hr : t ≤ revealRatio width height data
    · simp [maybeCompleteReveal, hlatch, hr]
    · simp [maybeCompleteReveal, hlatch, hr]
  · by_cases hlatch : s.revealTriggered = true
    · left
      simp [maybeCompleteReveal, hlatch]
    · have hfalse : s.revealTriggered = false := by
        simpa using hlatch
      by_cases hr : t ≤ revealRatio width height data
      · right
        exact ⟨hr, hfalse, by simp [maybeCompleteReveal, hfalse, hr]⟩
      · left
        simp [maybeCompleteReveal, hfalse, hr]

/-- Witness for C3 on a 2×2 surface: a fully erased surface has ratio 1,
the freshly painted one ratio 0, a zero-area surface ratio 0, and an
unlatched check on the fully erased surface fires exactly when the
threshold 2/5 is at or below the ratio. -/
theorem revealRatio_spec_witness :
    revealRatio 0 2 [] = 0 ∧
    revealRatio 2 2 (List.replicate (4 * (2 * 2)) 0) = 1 ∧
    revealRatio 2 2 (initialCanvasData (2 * 2)) = 0 ∧
    ((maybeCompleteReveal 2 2 (List.replicate (4 * (2 * 2)) 0) (2/5)
        initEngine).fires = initEngine.fires + 1 ↔
      (2/5 : ℚ) ≤ revealRatio 2 2 (List.replicate (4 * (2 * 2)) 0)) := by
  have h := revealRatio_spec 2 2 (List.replicate (4 * (2 * 2)) 0) (2/5) initEngine
  exact ⟨(revealRatio_spec 0 2 [] (2/5) initEngine).1 rfl,
    h.2.1 (by decide), h.2.2.1, h.2.2.2.1 rfl⟩

/-- C8 counterexample: the first pointer-enter in hover mode on a fresh
instance sets the visibility boolean but leaves the callback invocation
count at 0 and the latch clear — the hover handlers never call
`onRevealComplete`, contrary to the claim that the callback fires on the
first enter. -/
theorem hover_enter_never_fires :
    (onMouseEnter ScratchMode.hover initEngine).isHovering = true ∧
    (onMouseEnter ScratchMode.hover initEngine).fires = 0 ∧
    (onMouseEnter ScratchMode.hover initEngine).revealTriggered = false := by
  decide

/-- C8 amended: in hover mode, pointer-enter sets the visibility boolean
(hiding the occlusion canvas) and pointer-leave clears it (showing the
canvas again); neither handler invokes the reveal callback or touches the
latch. -/
theorem hover_toggles_without_firing (s : EngineState) :
    (onMouseEnter ScratchMode.hover s).isHovering = true ∧
    (onMouseLeave ScratchMode.hover s).isHovering = false ∧
    (onMouseEnter ScratchMode.hover s).fires = s.fires ∧
    (onMouseLeave ScratchMode.hover s).fires = s.fires ∧
    (onMouseEnter ScratchMode.hover s).revealTriggered = s.revealTriggered ∧
    (onMouseLeave ScratchMode.hover s).revealTriggered = s.revealTriggered ∧
    canvasOpacity ScratchMode.hover (onMouseEnter ScratchMode.hover s) = 0 ∧
    canvasOpacity ScratchMode.hover (onMouseLeave ScratchMode.hover s) = 1 := by
  simp [onMouseEnter, onMouseLeave, canvasOpacity]

/-- A letter whose ledger entry has status `read`. -/
def letterA : Letter := ⟨"a", "1", "memory", "hello", ""⟩

/-- Ledger where letter `"a"` has status `read`. -/
def actsReadA : Ledger :=
  fun k => if k = "a" then some ⟨LetterStatus.read, 1, 1⟩ else none

/-- C9 counterexample: the archive view's letter selection returns
`letterA`, whose ledger status is `read`, not `hearted` — the archive
derivation has no favorites narrowing, so it is not the case that it
returns exactly the hearted letters. -/
theorem favorites_filter_counterexample :
    letterA ∈ archiveItems [letterA] actsReadA ∧
    (actsReadA letterA.id).map LetterState.status ≠ some LetterStatus.hearted := by
  decide

/-- Inserting into the comparator-sorted archive list adds exactly the
inserted letter to the membership. -/
theorem mem_insertByUpdatedAtDesc (actions : Ledger) (letter a : Letter)
    (xs : List Letter) :
    a ∈ insertByUpdatedAtDesc actions letter xs ↔ a = letter ∨ a ∈ xs := by
  induction xs with
  | nil => simp [insertByUpdatedAtDesc]
  | cons x rest ih =>
      by_cases hcmp : archiveUpdatedAt actions x ≤ archiveUpdatedAt actions letter
      · simp [insertByUpdatedAtDesc, hcmp]
      · simp [insertByUpdatedAtDesc, hcmp, ih]
        tauto

/-- Sorting the archive list by updatedAt descending preserves
membership. -/
theorem mem_sortByUpdatedAtDesc (actions : Ledger) (a : Letter)
    (xs : List Letter) :
    a ∈ sortByUpdatedAtDesc actions xs ↔ a ∈ xs := by
  induction xs with
  | nil => simp [sortByUpdatedAtDesc]
  | cons x rest ih =>
      simp [sortByUpdatedAtDesc, mem_insertByUpdatedAtDesc, ih]

/-- C9 amended: the archive view applies no favorites (or tag, or
search-text) narrowing — `archiveItems` returns exactly the letters that
have a ledger entry of any status. -/
theorem archiveItems_membership (letters : List Letter) (actions : Ledger)
    (letter : Letter) :
    letter ∈ archiveItems letters actions ↔
      letter ∈ letters ∧ (actions letter.id).isSome = true := by
  rw [archiveItems, mem_sortByUpdatedAtDesc, List.mem_filter]

/-- C6: the startup load is total and falls back to the empty mapping on
a missing stored value, on a parse failure, and on any parsed value that
is not a truthy object-typed value; only a parsed non-null object (or
array, which has object type in the host language) replaces the initial
empty record. -/
theorem loadActions_total_fallback (parse : String → Option JsonValue)
    (stored : Option String) :
    (stored = none → loadActions parse stored = JsonValue.jobj []) ∧
    (∀ raw, stored = some raw → parse raw = none →
      loadActions parse stored = JsonValue.jobj []) ∧
    (∀ raw v, stored = some raw → parse raw = some v → isObjectLike v = false →
      loadActions parse stored = JsonValue.jobj []) ∧
    (∀ raw v, stored = some raw → parse raw = some v → isObjectLike v = true →
      loadActions parse stored = v) := by
  refine ⟨?_, ?_, ?_, ?_⟩
  · intro h
    subst h
    rfl
  · intro raw hs hp
    subst hs
    simp [loadActions, hp]
  · intro raw v hs hp hobj
    subst hs
    simp [loadActions, hp, hobj]
  · intro raw v hs hp hobj
    subst hs
    simp [loadActions, hp, hobj]

/-- A parse oracle on which `JSON.parse` always throws, as it would on
the stored string `"not json"`. -/
def parseBroken : String → Option JsonValue := fun _ => none

/-- Witness for C6: with `"not json"` in storage the load keeps the
empty mapping and surfaces no exception. -/
theorem loadActions_total_fallback_witness :
    loadActions parseBroken (some "not json") = JsonValue.jobj [] :=
  (loadActions_total_fallback parseBroken (some "not json")).2.1 "not json" rfl rfl
/-- A letter with an audio source. -/
def audioLetterA : Letter := ⟨"A", "1", "t", "x", "a.mp3"⟩

/-- A second letter with an audio source. -/
def audioLetterB : Letter := ⟨"B", "2", "t", "y", "b.mp3"⟩

/-- C7: evaluating the code on the overlapping-settlement schedule —
toggle letter A, toggle letter B while A's play attempt is still
pending, then let both attempts succeed in issue order — leaves the
clips of both letters audible at once (elements 0 and 1) with the slot
naming only letter B, because the second toggle pauses only the element
held in `audioRef`, which A's still-pending attempt has not been
assigned to yet; a subsequent `stopAudio` reaches only element 1, so
letter A's clip keeps sounding with the slot empty.  This contradicts
the claimed guarantee that at most one letter's clip is active at any
time. -/
theorem toggleAudio_overlap_two_clips :
    (applyAudioEvents
        [AudioEvent.evToggle audioLetterA, AudioEvent.evToggle audioLetterB,
         AudioEvent.evSettle 0 true, AudioEvent.evSettle 1 true]
        initAudioState).playingHandles = [0, 1] ∧
    (applyAudioEvents
        [AudioEvent.evToggle audioLetterA, AudioEvent.evToggle audioLetterB,
         AudioEvent.evSettle 0 true, AudioEvent.evSettle 1 true]
        initAudioState).activeAudioId = some audioLetterB.id ∧
    (stopAudio (applyAudioEvents
        [AudioEvent.evToggle audioLetterA, AudioEvent.evToggle audioLetterB,
         AudioEvent.evSettle 0 true, AudioEvent.evSettle 1 true]
        initAudioState)).playingHandles = [0] ∧
    (stopAudio (applyAudioEvents
        [AudioEvent.evToggle audioLetterA, AudioEvent.evToggle audioLetterB,
         AudioEvent.evSettle 0 true, AudioEvent.evSettle 1 true]
        initAudioState)).activeAudioId = none := by
  decide
